import Mathlib

/-!
Verification of the Money Balancer backend summary engine.

The definitions below are a shallow embedding of the Python sources
`src/server.py` and `src/backend/server.py` (FastAPI + MongoDB personal
finance tracker).  Monetary amounts (Python floats holding decimal currency
values) are modelled as rationals; Mongo documents are Lean structures whose
possibly-missing fields are `Option`s; the Mongo collections are Lean lists;
`datetime.now(timezone.utc)` is an injected calendar date; Python / BSON
string comparison is lexicographic comparison of code points, embedded
explicitly below.
-/

namespace MoneyBalancer

/-! ### Lexicographic string comparison (Python `<` / `>=` on `str`,
    Mongo `$gte`/`$lte` on string fields): code-point lexicographic order. -/

/-- Lexicographic strict order on char lists, comparing code points,
    a shorter strict prefix being smaller (Python string `<`). -/
def strLtL : List Char → List Char → Bool
  | [], [] => false
  | [], _ :: _ => true
  | _ :: _, [] => false
  | a :: as, b :: bs =>
    if a.toNat < b.toNat then true
    else if b.toNat < a.toNat then false
    else strLtL as bs

/-- Python `a <= b` on strings. -/
def strLe (a b : String) : Bool := ! strLtL b.data a.data

/-- Python `a < b` on strings. -/
def strLt (a b : String) : Bool := strLtL a.data b.data

/-! ### Date model: `datetime.now(timezone.utc)` is injected as a calendar
    date (the time-of-day components never influence the code paths we
    model, because `strftime("%Y-%m-%d")` drops them). -/

/-- A proleptic Gregorian calendar date, as held by a Python `datetime`. -/
structure Date where
  year : Nat
  month : Nat
  day : Nat
deriving DecidableEq, Repr

/-- Python `datetime` validity: month in 1..12, day in 1..daysInMonth,
    year in 1..9999 (`datetime.MINYEAR`/`MAXYEAR`). -/
def isLeap (y : Nat) : Bool := (y % 4 == 0 && y % 100 != 0) || y % 400 == 0

def daysInMonth (y m : Nat) : Nat :=
  if m == 2 then (if isLeap y then 29 else 28)
  else if m == 4 || m == 6 || m == 9 || m == 11 then 30
  else 31

def Date.Valid (d : Date) : Prop :=
  1 ≤ d.year ∧ d.year ≤ 9999 ∧ 1 ≤ d.month ∧ d.month ≤ 12 ∧
    1 ≤ d.day ∧ d.day ≤ daysInMonth d.year d.month

instance (d : Date) : Decidable d.Valid := by unfold Date.Valid; infer_instance

/-- Days before January 1 of year `y` counting from 0001-01-01
    (proleptic Gregorian), as in `datetime.date.toordinal`. -/
def daysBeforeYear (y : Nat) : Nat :=
  365 * (y - 1) + (y - 1) / 4 + (y - 1) / 400 - (y - 1) / 100

/-- Days in year `y` before the first day of month `m`. -/
def daysBeforeMonth (y : Nat) : Nat → Nat
  | 0 => 0
  | 1 => 0
  | m + 1 => daysBeforeMonth y m + daysInMonth y m

/-- `datetime.date.toordinal`: 0001-01-01 is day 1. -/
def Date.toOrdinal (d : Date) : Nat :=
  daysBeforeYear d.year + daysBeforeMonth d.year d.month + d.day

/-- Python `date.weekday()`: Monday = 0 … Sunday = 6
    (0001-01-01, ordinal 1, is a Monday). -/
def Date.weekday (d : Date) : Nat := (d.toOrdinal + 6) % 7

/-- One calendar day earlier (proleptic Gregorian). -/
def prevDay (d : Date) : Date :=
  if 2 ≤ d.day then ⟨d.year, d.month, d.day - 1⟩
  else if 2 ≤ d.month then ⟨d.year, d.month - 1, daysInMonth d.year (d.month - 1)⟩
  else ⟨d.year - 1, 12, 31⟩

/-- `now - timedelta(days=k)` for valid dates: `k` single-day steps back. -/
def subDays (k : Nat) (d : Date) : Date := prevDay^[k] d

/-- The fixed-width decimal numeral of `n` on `k` digits (`n < 10^k`),
    as produced by `strftime` zero padding. -/
def pad : Nat → Nat → List Char
  | 0, _ => []
  | k + 1, n => Char.ofNat (48 + n / 10 ^ k) :: pad k (n % 10 ^ k)

/-- `strftime("%Y-%m-%d")`. -/
def dateStr (d : Date) : String :=
  ⟨pad 4 d.year ++ '-' :: (pad 2 d.month ++ '-' :: pad 2 d.day)⟩

/-! ### Data model: the Mongo documents of the three collections.
    Fields that the code reads defensively with `.get` may be absent and
    are `Option`s; `amount` is always read with `d["amount"]`, so it is
    kept total. Timestamps are opaque creation instants. -/

structure ExpenseDoc where
  id : String
  title : String
  amount : ℚ
  date : Option String
  category : String
  timestamp : Nat
deriving DecidableEq, Repr

structure DebtDoc where
  id : String
  name : String
  amount : ℚ
  reason : String
  date : Option String
  status : Option String
  debt_type : Option String
  timestamp : Nat
deriving DecidableEq, Repr

structure LimitDoc where
  weekly_limit : Option ℚ
  monthly_limit : Option ℚ
deriving DecidableEq, Repr

/-- The database: `db.expenses`, `db.debts`, and the `limit_settings`
    singleton of `db.limits` (`none` when no such record exists). -/
structure Store where
  expenses : List ExpenseDoc
  debts : List DebtDoc
  limit : Option LimitDoc
deriving Repr

/-- The response model of `GET /api/summary` (`class Summary`). -/
structure Summary where
  total_today : ℚ
  total_week : ℚ
  total_month : ℚ
  weekly_limit : ℚ
  monthly_limit : ℚ
  remaining_week : ℚ
  remaining_month : ℚ
  money_gave : ℚ
  money_owe : ℚ
  weekly_warning : String
  monthly_warning : String
deriving DecidableEq, Repr

/-! ### `GET /api/summary` (`get_summary` in `src/server.py`). -/

/-- The warning tier computation that `get_summary` performs inline, twice
    (`weekly_warning` and `monthly_warning` blocks of `src/server.py`,
    lines 291-305, identical in `src/backend/server.py`). -/
def warningFor (total limit : ℚ) : String :=
  if limit > 0 then
    let percent := total / limit * 100
    if percent ≥ 100 then "red"
    else if percent ≥ 80 then "yellow"
    else "none"
  else "none"

/-- `get_summary` from `src/server.py` (lines 264-323): window boundaries
    from `now`, expense sums by string comparison on the `date` field
    (`e.get("date")`, default `""` for the `>=` filters), limits with
    absent-record and absent-field defaults of 0, warning tiers, and
    pending-debt netting.  `.to_list(length=10000)` caps both collection
    reads at the first 10000 documents. -/
def get_summary (now : Date) (store : Store) : Summary :=
  let today_date := dateStr now
  let week_start_date := dateStr (subDays now.weekday now)
  let month_start_date := dateStr ⟨now.year, now.month, 1⟩
  let all_expenses := store.expenses.take 10000
  let total_today :=
    ((all_expenses.filter fun e => e.date = some today_date).map
      (fun e => e.amount)).sum
  let total_week :=
    ((all_expenses.filter fun e => strLe week_start_date (e.date.getD "")).map
      (fun e => e.amount)).sum
  let total_month :=
    ((all_expenses.filter fun e => strLe month_start_date (e.date.getD "")).map
      (fun e => e.amount)).sum
  let weekly_limit :=
    match store.limit with
    | none => 0
    | some l => l.weekly_limit.getD 0
  let monthly_limit :=
    match store.limit with
    | none => 0
    | some l => l.monthly_limit.getD 0
  let remaining_week := weekly_limit - total_week
  let remaining_month := monthly_limit - total_month
  let weekly_warning := warningFor total_week weekly_limit
  let monthly_warning := warningFor total_month monthly_limit
  let all_debts := store.debts.take 10000
  let money_gave :=
    ((all_debts.filter fun d =>
      d.debt_type = some "gave" ∧ d.status = some "pending").map
      (fun d => d.amount)).sum
  let money_owe :=
    ((all_debts.filter fun d =>
      d.debt_type = some "owe" ∧ d.status = some "pending").map
      (fun d => d.amount)).sum
  { total_today := total_today
    total_week := total_week
    total_month := total_month
    weekly_limit := weekly_limit
    monthly_limit := monthly_limit
    remaining_week := remaining_week
    remaining_month := remaining_month
    money_gave := money_gave
    money_owe := money_owe
    weekly_warning := weekly_warning
    monthly_warning := monthly_warning }

/-! ### `GET /api/expenses` (both server variants differ on `filter=day`). -/

/-- Stable insertion (descending by `date` key) used to model Python's
    stable `list.sort(key=..., reverse=True)`: a new element goes after
    every already-placed element whose key is `>=` its own. -/
def insertByDateDesc (x : ExpenseDoc) : List ExpenseDoc → List ExpenseDoc
  | [] => [x]
  | y :: ys =>
    if strLt (y.date.getD "") (x.date.getD "") then x :: y :: ys
    else y :: insertByDateDesc x ys

/-- `docs.sort(key=lambda x: x.get("date", ""), reverse=True)`: stable
    descending sort by the `date` string. -/
def sortByDateDesc (l : List ExpenseDoc) : List ExpenseDoc :=
  l.foldl (fun acc x => insertByDateDesc x acc) []

/-- `get_expenses` from `src/server.py` (lines 149-177).  The Mongo query on
    the `date` field matches only documents where the field is present;
    `filter="day"` uses `{"$gte": today, "$lte": today}`, i.e. equality. -/
def get_expenses_server (now : Date) (filt : Option String)
    (expenses : List ExpenseDoc) : List ExpenseDoc :=
  let pred : ExpenseDoc → Bool :=
    match filt with
    | some "day" => fun e =>
        match e.date with
        | some s => strLe (dateStr now) s && strLe s (dateStr now)
        | none => false
    | some "week" => fun e =>
        match e.date with
        | some s => strLe (dateStr (subDays now.weekday now)) s
        | none => false
    | some "month" => fun e =>
        match e.date with
        | some s => strLe (dateStr ⟨now.year, now.month, 1⟩) s
        | none => false
    | _ => fun _ => true
  sortByDateDesc ((expenses.filter pred).take 10000)

/-- `get_expenses` from `src/backend/server.py` (lines 106-135).  Here
    `filter="day"` uses `{"$gte": start_of_day}`, i.e. every date from today
    onward. -/
def get_expenses_backend (now : Date) (filt : Option String)
    (expenses : List ExpenseDoc) : List ExpenseDoc :=
  let pred : ExpenseDoc → Bool :=
    match filt with
    | some "day" => fun e =>
        match e.date with
        | some s => strLe (dateStr now) s
        | none => false
    | some "week" => fun e =>
        match e.date with
        | some s => strLe (dateStr (subDays now.weekday now)) s
        | none => false
    | some "month" => fun e =>
        match e.date with
        | some s => strLe (dateStr ⟨now.year, now.month, 1⟩) s
        | none => false
    | _ => fun _ => true
  sortByDateDesc ((expenses.filter pred).take 10000)

/-! ### `PATCH /api/expenses/{id}` and `PATCH /api/debts/{id}`. -/

/-- The request body of expense create/update (`class ExpenseCreate`). -/
structure ExpenseCreate where
  title : String
  amount : ℚ
  date : String
  category : String
deriving Repr

/-- The `{"$set": input.model_dump()}` of `update_expense`
    (`src/server.py` lines 179-195): exactly `title`, `amount`, `date`
    and `category` are replaced. -/
def applyExpenseSet (inp : ExpenseCreate) (e : ExpenseDoc) : ExpenseDoc :=
  { e with
    title := inp.title
    amount := inp.amount
    date := some inp.date
    category := inp.category }

/-- `db.expenses.find_one_and_update({"id": expense_id}, {"$set": ...})`:
    the first document whose `id` matches is updated in place. -/
def update_expense (expense_id : String) (inp : ExpenseCreate) :
    List ExpenseDoc → List ExpenseDoc
  | [] => []
  | e :: rest =>
    if e.id = expense_id then applyExpenseSet inp e :: rest
    else e :: update_expense expense_id inp rest

/-- `update_debt` (`src/server.py` lines 225-237):
    `{"$set": {"status": input.status}}` on the first matching document. -/
def update_debt (debt_id : String) (status : String) :
    List DebtDoc → List DebtDoc
  | [] => []
  | d :: rest =>
    if d.id = debt_id then { d with status := some status } :: rest
    else d :: update_debt debt_id status rest

/-! ### The expense totals of `get_summary` in `src/backend/server.py`.
    That variant reads the date with subscript access `e['date']`
    (lines 266-268) instead of `e.get(...)`, so a stored expense lacking
    the field raises `KeyError` and aborts the whole summary; the raise is
    modelled by `none`. -/

/-- `sum(e['amount'] for e in l if pred(e['date']))` with subscripting:
    `none` when any traversed document lacks a `date` field. -/
def sumByDate (pred : String → Bool) : List ExpenseDoc → Option ℚ
  | [] => some 0
  | e :: rest =>
    match e.date with
    | none => none
    | some s =>
      match sumByDate pred rest with
      | none => none
      | some acc => some ((if pred s then e.amount else 0) + acc)

/-- `(total_today, total_week, total_month)` as computed by `get_summary`
    in `src/backend/server.py` (lines 250-268): the same window boundaries
    and `.to_list(10000)` cap as `src/server.py`, but fallible date
    access. -/
def backendExpenseTotals (now : Date) (store : Store) : Option (ℚ × ℚ × ℚ) :=
  let today_date := dateStr now
  let week_start_date := dateStr (subDays now.weekday now)
  let month_start_date := dateStr ⟨now.year, now.month, 1⟩
  let all_expenses := store.expenses.take 10000
  match sumByDate (fun s => s = today_date) all_expenses,
      sumByDate (fun s => strLe week_start_date s) all_expenses,
      sumByDate (fun s => strLe month_start_date s) all_expenses with
  | some t, some w, some m => some (t, w, m)
  | _, _, _ => none

/-- Spec-side predicate (§3 of the data model): a string of the fixed-width
    zero-padded `YYYY-MM-DD` form.  The source performs no such check; this
    definition only states claims about malformed dates. -/
def isIsoDateFormat (s : String) : Bool :=
  match s.data with
  | [y1, y2, y3, y4, c1, m1, m2, c2, d1, d2] =>
    y1.isDigit && y2.isDigit && y3.isDigit && y4.isDigit && c1 == '-' &&
    m1.isDigit && m2.isDigit && c2 == '-' && d1.isDigit && d2.isDigit
  | _ => false

/-- A concrete expense document dated 2025-10-12, used in concrete stores. -/
def cx : ExpenseDoc := ⟨"e", "t", 1, some "2025-10-12", "c", 0⟩

/-- A concrete pending `gave` debt document, used in concrete stores. -/
def cd : DebtDoc := ⟨"d", "n", 1, "r", some "2025-10-12", some "pending", some "gave", 0⟩

/-- A concrete store of three dated expenses around 2025-10-12. -/
def st1 : Store :=
  ⟨[⟨"e1", "t", 5, some "2025-10-12", "c", 0⟩,
    ⟨"e2", "t", 7, some "2025-10-07", "c", 0⟩,
    ⟨"e3", "t", 11, some "2025-09-30", "c", 0⟩], [], none⟩

/-- A concrete store holding one expense with a malformed date string. -/
def st3 : Store := ⟨[⟨"e1", "t", 5, some "bad-date", "c", 0⟩], [], none⟩

/-- A concrete store holding one expense without a date field. -/
def st5 : Store :=
  ⟨[⟨"e1", "t", 5, some "2025-10-12", "c", 0⟩,
    ⟨"e4", "t", 13, none, "c", 0⟩], [], none⟩

/-- A concrete store with one pending debt in each direction. -/
def st4 : Store :=
  ⟨[], [⟨"d1", "n", 100, "r", some "2025-10-01", some "pending", some "gave", 0⟩,
        ⟨"d2", "n", 50, "r", some "2025-10-01", some "pending", some "owe", 0⟩], none⟩

/-- Strict calendar order on dates, componentwise lexicographic. -/
def dateLt (a b : Date) : Prop :=
  a.year < b.year ∨ (a.year = b.year ∧
    (a.month < b.month ∨ (a.month = b.month ∧ a.day < b.day)))

/-- Calendar order on dates, componentwise lexicographic. -/
def dateLe (a b : Date) : Prop :=
  a.year < b.year ∨ (a.year = b.year ∧
    (a.month < b.month ∨ (a.month = b.month ∧ a.day ≤ b.day)))

/-- Field bounds under which `strftime` zero padding is faithful. -/
def Bounded (d : Date) : Prop := d.year < 10000 ∧ d.month < 100 ∧ d.day < 100

/-- Month/day validity of a date (year bounds tracked separately). -/
def ValidB (d : Date) : Prop :=
  1 ≤ d.month ∧ d.month ≤ 12 ∧ 1 ≤ d.day ∧ d.day ≤ daysInMonth d.year d.month

/-! ## Helper lemmas -/

theorem pad_length : ∀ (k n : Nat), (pad k n).length = k := by
  intro k
  induction k with
  | zero => intro n; rfl
  | succ m ih => intro n; simp [pad, ih]

theorem strLtL_cons_same (c : Char) (l₁ l₂ : List Char) :
    strLtL (c :: l₁) (c :: l₂) = strLtL l₁ l₂ := by
  simp [strLtL]

/-- Lexicographic comparison splits at an equal-length prefix. -/
theorem strLtL_append : ∀ (l₁ l₂ r₁ r₂ : List Char), l₁.length = l₂.length →
    strLtL (l₁ ++ r₁) (l₂ ++ r₂) =
      (if strLtL l₁ l₂ = true then true
       else if strLtL l₂ l₁ = true then false
       else strLtL r₁ r₂) := by
  intro l₁
  induction l₁ with
  | nil =>
    intro l₂ r₁ r₂ h
    cases l₂ with
    | nil => simp [strLtL]
    | cons b bs => simp at h
  | cons a as ih =>
    intro l₂ r₁ r₂ h
    cases l₂ with
    | nil => simp at h
    | cons b bs =>
      simp only [List.length_cons, Nat.add_right_cancel_iff] at h
      simp only [List.cons_append, strLtL]
      by_cases h1 : a.toNat < b.toNat
      · simp [h1]
      · by_cases h2 : b.toNat < a.toNat
        · simp [h1, h2]
        · simp only [if_neg h1, if_neg h2]
          exact ih bs r₁ r₂ h

/-- Base-`c` positional comparison of a natural number. -/
theorem lt_iff_div_mod (c a b : Nat) (hc : 0 < c) :
    a < b ↔ (a / c < b / c ∨ (a / c = b / c ∧ a % c < b % c)) := by
  have ha := Nat.div_add_mod a c
  have hb := Nat.div_add_mod b c
  have hma : a % c < c := Nat.mod_lt _ hc
  have hmb : b % c < c := Nat.mod_lt _ hc
  constructor
  · intro h
    have hd : a / c ≤ b / c := Nat.div_le_div_right (le_of_lt h)
    rcases Nat.eq_or_lt_of_le hd with he | hl
    · right
      refine ⟨he, ?_⟩
      rw [← he] at hb
      generalize c * (a / c) = t at ha hb
      omega
    · left; exact hl
  · intro h
    rcases h with h1 | ⟨h1, h2⟩
    · have key : c * (a / c + 1) ≤ c * (b / c) := Nat.mul_le_mul_left c h1
      rw [Nat.mul_succ] at key
      generalize c * (a / c) = t1 at ha key
      generalize c * (b / c) = t2 at hb key
      omega
    · rw [← h1] at hb
      generalize c * (a / c) = t at ha hb
      omega

/-- Lexicographic comparison of equal-width zero-padded numerals is numeric
    comparison. -/
theorem pad_lt_iff : ∀ (k a b : Nat), a < 10 ^ k → b < 10 ^ k →
    (strLtL (pad k a) (pad k b) = true ↔ a < b) := by
  intro k
  induction k with
  | zero =>
    intro a b hA hB
    simp [pow_zero] at hA hB
    simp [pad, strLtL, hA, hB]
  | succ m ih =>
    intro a b hA hB
    have hpow : 0 < 10 ^ m := Nat.pos_pow_of_pos m (by norm_num)
    have hda : a / 10 ^ m < 10 := by
      rw [Nat.div_lt_iff_lt_mul hpow, mul_comm, ← pow_succ]
      exact hA
    have hdb : b / 10 ^ m < 10 := by
      rw [Nat.div_lt_iff_lt_mul hpow, mul_comm, ← pow_succ]
      exact hB
    have hma : a % 10 ^ m < 10 ^ m := Nat.mod_lt _ hpow
    have hmb : b % 10 ^ m < 10 ^ m := Nat.mod_lt _ hpow
    have hch : ∀ x, x < 10 → ∀ y, y < 10 →
        ((Char.ofNat (48 + x)).toNat < (Char.ofNat (48 + y)).toNat ↔ x < y) := by
      decide
    simp only [pad, strLtL]
    rw [lt_iff_div_mod (10 ^ m) a b hpow]
    by_cases h1 : a / 10 ^ m < b / 10 ^ m
    · rw [if_pos ((hch _ hda _ hdb).2 h1)]
      simp [h1]
    · rw [if_neg (fun hc => h1 ((hch _ hda _ hdb).1 hc))]
      by_cases h2 : b / 10 ^ m < a / 10 ^ m
      · rw [if_pos ((hch _ hdb _ hda).2 h2)]
        constructor
        · intro hfalse; exact absurd hfalse (by simp)
        · intro hor
          exfalso
          rcases hor with h | ⟨he, _⟩
          · omega
          · omega
      · rw [if_neg (fun hc => h2 ((hch _ hdb _ hda).1 hc))]
        have he : a / 10 ^ m = b / 10 ^ m := by omega
        rw [ih _ _ hma hmb]
        constructor
        · intro h3; exact Or.inr ⟨he, h3⟩
        · intro hor
          rcases hor with h | ⟨_, h3⟩
          · omega
          · exact h3

/-- Lexicographic comparison of formatted `YYYY-MM-DD` strings agrees with
    calendar comparison of the underlying (bounded) dates. -/
theorem dateStr_lt_iff (a b : Date) (ha : Bounded a) (hb : Bounded b) :
    (strLtL (dateStr a).data (dateStr b).data = true) ↔ dateLt a b := by
  obtain ⟨hay, ham, had⟩ := ha
  obtain ⟨hby, hbm, hbd⟩ := hb
  have hay4 : a.year < 10 ^ 4 := by norm_num; omega
  have hby4 : b.year < 10 ^ 4 := by norm_num; omega
  have ham2 : a.month < 10 ^ 2 := by norm_num; omega
  have hbm2 : b.month < 10 ^ 2 := by norm_num; omega
  have had2 : a.day < 10 ^ 2 := by norm_num; omega
  have hbd2 : b.day < 10 ^ 2 := by norm_num; omega
  show strLtL (pad 4 a.year ++ '-' :: (pad 2 a.month ++ '-' :: pad 2 a.day))
      (pad 4 b.year ++ '-' :: (pad 2 b.month ++ '-' :: pad 2 b.day)) = true ↔ _
  rw [strLtL_append _ _ _ _ (by rw [pad_length, pad_length]),
    strLtL_cons_same, strLtL_append _ _ _ _ (by rw [pad_length, pad_length]),
    strLtL_cons_same]
  unfold dateLt
  by_cases hy1 : a.year < b.year
  · rw [if_pos ((pad_lt_iff 4 _ _ hay4 hby4).2 hy1)]
    simp [hy1]
  · rw [if_neg (fun hc => hy1 ((pad_lt_iff 4 _ _ hay4 hby4).1 hc))]
    by_cases hy2 : b.year < a.year
    · rw [if_pos ((pad_lt_iff 4 _ _ hby4 hay4).2 hy2)]
      constructor
      · intro hfalse; exact absurd hfalse (by simp)
      · intro hor; exfalso; rcases hor with h | ⟨he, _⟩ <;> omega
    · rw [if_neg (fun hc => hy2 ((pad_lt_iff 4 _ _ hby4 hay4).1 hc))]
      have hey : a.year = b.year := by omega
      by_cases hm1 : a.month < b.month
      · rw [if_pos ((pad_lt_iff 2 _ _ ham2 hbm2).2 hm1)]
        simp [hey, hm1]
      · rw [if_neg (fun hc => hm1 ((pad_lt_iff 2 _ _ ham2 hbm2).1 hc))]
        by_cases hm2 : b.month < a.month
        · rw [if_pos ((pad_lt_iff 2 _ _ hbm2 ham2).2 hm2)]
          constructor
          · intro hfalse; exact absurd hfalse (by simp)
          · intro hor; exfalso
            rcases hor with h | ⟨he, hm | ⟨hem, _⟩⟩ <;> omega
        · rw [if_neg (fun hc => hm2 ((pad_lt_iff 2 _ _ hbm2 ham2).1 hc))]
          have hem : a.month = b.month := by omega
          rw [pad_lt_iff 2 _ _ had2 hbd2]
          constructor
          · intro hd; exact Or.inr ⟨hey, Or.inr ⟨hem, hd⟩⟩
          · intro hor
            rcases hor with h | ⟨_, hm | ⟨_, hd⟩⟩
            · omega
            · omega
            · exact hd

/-- Earlier (bounded) dates format to lexicographically `≤` strings. -/
theorem dateStr_le_of_dateLe (a b : Date) (ha : Bounded a) (hb : Bounded b)
    (h : dateLe a b) : strLe (dateStr a) (dateStr b) = true := by
  have hlt : strLtL (dateStr b).data (dateStr a).data = false := by
    rcases Bool.eq_false_or_eq_true (strLtL (dateStr b).data (dateStr a).data) with
      ht | hf
    · exfalso
      have := (dateStr_lt_iff b a hb ha).1 ht
      unfold dateLt at this
      unfold dateLe at h
      omega
    · exact hf
  unfold strLe
  rw [hlt]
  rfl

theorem daysInMonth_bounds (y m : Nat) :
    28 ≤ daysInMonth y m ∧ daysInMonth y m ≤ 31 := by
  unfold daysInMonth
  split_ifs <;> norm_num

theorem daysBeforeMonth_succ (y m : Nat) (h : 1 ≤ m) :
    daysBeforeMonth y (m + 1) = daysBeforeMonth y m + daysInMonth y m := by
  cases m with
  | zero => omega
  | succ m' => rfl

theorem daysBeforeMonth_12_31 (y : Nat) :
    daysBeforeMonth y 12 + 31 = if isLeap y then 366 else 365 := by
  have h : daysBeforeMonth y 12 =
      0 + 31 + (if isLeap y then 29 else 28) + 31 + 30 + 31 + 30 + 31 + 31 +
        30 + 31 + 30 := rfl
  rw [h]
  by_cases hl : isLeap y = true
  · simp [hl]
  · simp only [Bool.not_eq_true] at hl
    simp [hl]

theorem daysBeforeYear_succ (y : Nat) (h : 1 ≤ y) :
    daysBeforeYear (y + 1) = daysBeforeYear y + (if isLeap y then 366 else 365) := by
  unfold daysBeforeYear isLeap
  simp only [Nat.add_sub_cancel]
  by_cases h4 : y % 4 = 0 <;> by_cases h100 : y % 100 = 0 <;>
    by_cases h400 : y % 400 = 0 <;>
    simp [h4, h100, h400] <;> omega

theorem daysBeforeYear_le1 (y : Nat) (h : y ≤ 1) : daysBeforeYear y = 0 := by
  interval_cases y <;> rfl

theorem dateLe_refl (d : Date) : dateLe d d := by unfold dateLe; omega

theorem dateLe_trans (a b c : Date) (h1 : dateLe a b) (h2 : dateLe b c) :
    dateLe a c := by
  unfold dateLe at *
  omega

theorem dateLt_le (a b : Date) (h : dateLt a b) : dateLe a b := by
  unfold dateLt at h
  unfold dateLe
  omega

/-- Going one day back from a valid date of positive ordinal stays valid,
    decrements the ordinal, and strictly decreases the calendar order. -/
theorem prevDay_step (d : Date) (hv : ValidB d) (hy : 1 ≤ d.year)
    (h2 : 2 ≤ d.toOrdinal) :
    ValidB (prevDay d) ∧ 1 ≤ (prevDay d).year ∧ (prevDay d).year ≤ d.year ∧
    (prevDay d).toOrdinal + 1 = d.toOrdinal ∧ dateLt (prevDay d) d := by
  obtain ⟨hm1, hm12, hd1, hdm⟩ := hv
  unfold prevDay
  split_ifs with hd hm
  · -- day ≥ 2
    refine ⟨⟨?_, ?_, ?_, ?_⟩, ?_, ?_, ?_, ?_⟩
    · show 1 ≤ d.month
      omega
    · show d.month ≤ 12
      omega
    · show 1 ≤ d.day - 1
      omega
    · show d.day - 1 ≤ daysInMonth d.year d.month
      omega
    · show 1 ≤ d.year
      omega
    · show d.year ≤ d.year
      omega
    · show daysBeforeYear d.year + daysBeforeMonth d.year d.month + (d.day - 1) + 1 =
        daysBeforeYear d.year + daysBeforeMonth d.year d.month + d.day
      omega
    · show d.year < d.year ∨ (d.year = d.year ∧
        (d.month < d.month ∨ (d.month = d.month ∧ d.day - 1 < d.day)))
      omega
  · -- day = 1, month ≥ 2
    have hdim := daysInMonth_bounds d.year (d.month - 1)
    have hsucc := daysBeforeMonth_succ d.year (d.month - 1) (by omega)
    have hmm : d.month - 1 + 1 = d.month := by omega
    rw [hmm] at hsucc
    refine ⟨⟨?_, ?_, ?_, ?_⟩, ?_, ?_, ?_, ?_⟩
    · show 1 ≤ d.month - 1
      omega
    · show d.month - 1 ≤ 12
      omega
    · show 1 ≤ daysInMonth d.year (d.month - 1)
      omega
    · show daysInMonth d.year (d.month - 1) ≤ daysInMonth d.year (d.month - 1)
      omega
    · show 1 ≤ d.year
      omega
    · show d.year ≤ d.year
      omega
    · show daysBeforeYear d.year + daysBeforeMonth d.year (d.month - 1) +
          daysInMonth d.year (d.month - 1) + 1 =
        daysBeforeYear d.year + daysBeforeMonth d.year d.month + d.day
      omega
    · show d.year < d.year ∨ (d.year = d.year ∧
        (d.month - 1 < d.month ∨ (d.month - 1 = d.month ∧
          daysInMonth d.year (d.month - 1) < d.day)))
      omega
  · -- day = 1, month = 1
    have hmeq : d.month = 1 := by omega
    have hdeq : d.day = 1 := by omega
    have hord : d.toOrdinal = daysBeforeYear d.year + 1 := by
      unfold Date.toOrdinal
      rw [hmeq, hdeq]
      simp [daysBeforeMonth]
    have hy2 : 2 ≤ d.year := by
      by_contra hcon
      have hle : d.year ≤ 1 := by omega
      rw [daysBeforeYear_le1 d.year hle] at hord
      omega
    have hdim12 : daysInMonth (d.year - 1) 12 = 31 := rfl
    have hsy := daysBeforeYear_succ (d.year - 1) (by omega)
    have hym : d.year - 1 + 1 = d.year := by omega
    rw [hym] at hsy
    have hm31 := daysBeforeMonth_12_31 (d.year - 1)
    refine ⟨⟨?_, ?_, ?_, ?_⟩, ?_, ?_, ?_, ?_⟩
    · show 1 ≤ 12
      omega
    · show 12 ≤ 12
      omega
    · show 1 ≤ 31
      omega
    · show 31 ≤ daysInMonth (d.year - 1) 12
      omega
    · show 1 ≤ d.year - 1
      omega
    · show d.year - 1 ≤ d.year
      omega
    · show daysBeforeYear (d.year - 1) + daysBeforeMonth (d.year - 1) 12 + 31 + 1 =
        d.toOrdinal
      rw [hord]
      cases hli : isLeap (d.year - 1) <;> rw [hli] at hsy hm31 <;>
        simp at hsy hm31 <;> omega
    · show d.year - 1 < d.year ∨ (d.year - 1 = d.year ∧
        (12 < d.month ∨ (12 = d.month ∧ 31 < d.day)))
      omega

/-- Going `k` days back stays within the calendar while the ordinal allows
    it, and never goes calendar-forward. -/
theorem subDays_props (k : Nat) (d : Date) (hv : ValidB d) (hy : 1 ≤ d.year)
    (hk : k + 1 ≤ d.toOrdinal) :
    ValidB (subDays k d) ∧ 1 ≤ (subDays k d).year ∧
    (subDays k d).year ≤ d.year ∧
    (subDays k d).toOrdinal + k = d.toOrdinal ∧ dateLe (subDays k d) d := by
  induction k with
  | zero =>
    refine ⟨?_, ?_, ?_, ?_, ?_⟩ <;> simp only [subDays, Function.iterate_zero, id]
    · exact hv
    · exact hy
    · exact le_refl _
    · omega
    · exact dateLe_refl d
  | succ m ih =>
    have ihm := ih (by omega)
    obtain ⟨ihv, ihy, ihyle, ihord, ihle⟩ := ihm
    have hstep := prevDay_step (subDays m d) ihv ihy (by omega)
    obtain ⟨sv, sy, syle, sord, slt⟩ := hstep
    have hit : subDays (m + 1) d = prevDay (subDays m d) := by
      simp only [subDays, Function.iterate_succ_apply']
    rw [hit]
    refine ⟨sv, sy, by omega, by omega, ?_⟩
    exact dateLe_trans _ _ _ (dateLt_le _ _ slt) ihle

theorem toOrdinal_pos (d : Date) (h : 1 ≤ d.day) : 1 ≤ d.toOrdinal := by
  unfold Date.toOrdinal
  omega

/-- The weekday index never reaches back past ordinal 1 (0001-01-01, a
    Monday), so `now - timedelta(days=now.weekday())` is a valid date. -/
theorem weekday_lt_ord (d : Date) (h : 1 ≤ d.toOrdinal) :
    d.weekday + 1 ≤ d.toOrdinal := by
  unfold Date.weekday
  have heq : d.toOrdinal + 6 = (d.toOrdinal - 1) + 7 := by omega
  rw [heq, Nat.add_mod_right]
  have := Nat.mod_le (d.toOrdinal - 1) 7
  omega

/-- Shrinking the filter of a non-negative-amount sum shrinks the sum. -/
theorem filter_sum_mono (p q : ExpenseDoc → Bool) :
    ∀ (l : List ExpenseDoc), (∀ e ∈ l, 0 ≤ e.amount) →
      (∀ e ∈ l, p e = true → q e = true) →
      ((l.filter p).map (fun e => e.amount)).sum ≤
        ((l.filter q).map (fun e => e.amount)).sum := by
  intro l
  induction l with
  | nil => intro _ _; simp
  | cons e rest ih =>
    intro hn himp
    have hne : 0 ≤ e.amount := hn e (List.mem_cons_self e rest)
    have hnr : ∀ x ∈ rest, 0 ≤ x.amount := fun x hx =>
      hn x (List.mem_cons_of_mem e hx)
    have himpr : ∀ x ∈ rest, p x = true → q x = true := fun x hx =>
      himp x (List.mem_cons_of_mem e hx)
    have ihr := ih hnr himpr
    rw [List.filter_cons, List.filter_cons]
    cases hp : p e with
    | true =>
      have hq := himp e (List.mem_cons_self e rest) hp
      rw [hq]
      simp only [if_pos rfl, List.map_cons, List.sum_cons]
      exact add_le_add_left ihr _
    | false =>
      rw [if_neg Bool.false_ne_true]
      cases hq : q e with
      | true =>
        simp only [if_pos rfl, List.map_cons, List.sum_cons]
        calc ((rest.filter p).map (fun e => e.amount)).sum ≤
            ((rest.filter q).map (fun e => e.amount)).sum := ihr
          _ ≤ e.amount + ((rest.filter q).map (fun e => e.amount)).sum := by
            linarith
      | false =>
        rw [if_neg Bool.false_ne_true]
        exact ihr

/-- Filtering a replicated matching expense keeps every copy. -/
theorem repl_filter_today (n : ℕ) :
    ((List.replicate n cx).filter fun e => e.date = some (dateStr ⟨2025, 10, 12⟩)) =
      List.replicate n cx := by
  rw [List.filter_replicate, if_pos (by rfl)]

/-- Filtering a replicated pending `gave` debt keeps every copy. -/
theorem repl_filter_gave (n : ℕ) :
    ((List.replicate n cd).filter fun d =>
        d.debt_type = some "gave" ∧ d.status = some "pending") =
      List.replicate n cd := by
  rw [List.filter_replicate, if_pos (by rfl)]

/-- After every status is set to `"paid"`, the pending-debt filter of
    `get_summary` matches nothing. -/
theorem paid_filter_nil (t : String) (l : List DebtDoc) :
    ((l.map fun d => { d with status := some "paid" }).filter fun d =>
        d.debt_type = some t ∧ d.status = some "pending") = [] := by
  induction l with
  | nil => rfl
  | cons d rest ih =>
    simp only [List.map_cons, List.filter_cons]
    rw [if_neg, ih]
    simp

/-- A formatted date string is never `≤` the empty string (lexicographic),
    so an expense with a missing `date` never matches a `>=` window. -/
theorem dateStr_ne_empty (d : Date) : strLe (dateStr d) "" = false := rfl

/-- The `.get("date", "")` window filter of `src/server.py` matches exactly
    the expenses with a present date string `≥` the boundary. -/
theorem filter_date_getD (b : Date) (l : List ExpenseDoc) :
    (l.filter fun e => strLe (dateStr b) (e.date.getD "")) =
      (l.filter fun e =>
        match e.date with
        | some s => strLe (dateStr b) s
        | none => false) := by
  apply List.filter_congr
  intro e _
  cases h : e.date with
  | none => simp [h, Option.getD, dateStr_ne_empty]
  | some s => simp [h, Option.getD]

/-- The equality filter on an optional date, rephrased on the present
    string. -/
theorem filter_date_eq (t : String) (l : List ExpenseDoc) :
    (l.filter fun e => e.date = some t) =
      (l.filter fun e =>
        match e.date with
        | some s => s = t
        | none => false) := by
  apply List.filter_congr
  intro e _
  cases h : e.date with
  | none => simp [h]
  | some s => simp [h]

/-- When every traversed document has a date, the fallible backend sum
    agrees with the defensive filtered sum. -/
theorem sumByDate_all_present (pred : String → Bool) :
    ∀ (l : List ExpenseDoc), (∀ e ∈ l, e.date ≠ none) →
      sumByDate pred l =
        some (((l.filter fun e =>
          match e.date with
          | some s => pred s
          | none => false).map (fun e => e.amount)).sum) := by
  intro l
  induction l with
  | nil => intro _; rfl
  | cons e rest ih =>
    intro h
    have hne := h e (List.mem_cons_self e rest)
    have hrest : ∀ x ∈ rest, x.date ≠ none := fun x hx =>
      h x (List.mem_cons_of_mem e hx)
    cases hd : e.date with
    | none => exact absurd hd hne
    | some s =>
      simp only [sumByDate, hd, ih hrest, List.filter_cons]
      cases hp : pred s with
      | true => simp [hp]
      | false => simp [hp]

/-- One document without a date makes the fallible backend sum raise. -/
theorem sumByDate_missing (pred : String → Bool) :
    ∀ (l : List ExpenseDoc), (∃ e ∈ l, e.date = none) →
      sumByDate pred l = none := by
  intro l
  induction l with
  | nil => intro h; simp at h
  | cons e rest ih =>
    intro h
    cases hd : e.date with
    | none => simp [sumByDate, hd]
    | some s =>
      obtain ⟨x, hx, hxd⟩ := h
      rcases List.mem_cons.1 hx with rfl | hx'
      · rw [hd] at hxd
        exact absurd hxd (by simp)
      · simp [sumByDate, hd, ih ⟨x, hx', hxd⟩]

/-! ## Theorems -/

/-- Claim C1: the warning classifier of `get_summary` returns `none` when
    the limit is `≤ 0`; otherwise, with `percent = spent / limit * 100`, it
    returns `red` when `percent ≥ 100`, `yellow` when `80 ≤ percent < 100`
    and `none` when `percent < 80` (boundaries inclusive on the higher
    tier), and this classification is applied independently to the pair
    (`total_week`, `weekly_limit`) and the pair
    (`total_month`, `monthly_limit`). -/
theorem warning_classifier_correct (S L : ℚ) (hS : 0 ≤ S) :
    (L ≤ 0 → warningFor S L = "none") ∧
    (0 < L →
      (100 ≤ S / L * 100 → warningFor S L = "red") ∧
      (80 ≤ S / L * 100 ∧ S / L * 100 < 100 → warningFor S L = "yellow") ∧
      (S / L * 100 < 80 → warningFor S L = "none")) ∧
    (∀ (now : Date) (store : Store),
      (get_summary now store).weekly_warning =
        warningFor (get_summary now store).total_week
          (get_summary now store).weekly_limit ∧
      (get_summary now store).monthly_warning =
        warningFor (get_summary now store).total_month
          (get_summary now store).monthly_limit) := by
  refine ⟨fun hL => ?_, fun hL => ⟨fun h => ?_, fun h => ?_, fun h => ?_⟩,
    fun now store => ⟨rfl, rfl⟩⟩
  · simp only [warningFor]
    split_ifs with h1 <;> first | rfl | (exfalso; linarith)
  · simp only [warningFor]
    split_ifs with h1 h2 h3 <;> first | rfl | (exfalso; linarith)
  · obtain ⟨ha, hb⟩ := h
    simp only [warningFor]
    split_ifs with h1 h2 h3 <;> first | rfl | (exfalso; linarith)
  · simp only [warningFor]
    split_ifs with h1 h2 h3 <;> first | rfl | (exfalso; linarith)

/-- Witness for C1: spending exactly 80% of a positive limit is classified
    `yellow`. -/
theorem warning_classifier_correct_witness :
    warningFor 160 200 = "yellow" :=
  ((warning_classifier_correct 160 200 (by norm_num)).2.1
    (by norm_num)).2.1 (by norm_num)

/-- Claim C5: when no LimitSettings record exists, `get_summary` reports
    `weekly_limit = 0`, `monthly_limit = 0` and both warnings `none`,
    regardless of the stored expenses and debts. -/
theorem absent_limit_defaults (now : Date) (store : Store)
    (h : store.limit = none) :
    (get_summary now store).weekly_limit = 0 ∧
    (get_summary now store).monthly_limit = 0 ∧
    (get_summary now store).weekly_warning = "none" ∧
    (get_summary now store).monthly_warning = "none" := by
  simp only [get_summary, h, warningFor]
  norm_num

/-- Witness for C5: a store with a large expense but no limit record. -/
theorem absent_limit_defaults_witness :
    (get_summary ⟨2025, 10, 12⟩
        ⟨[⟨"e1", "t", 500, some "2025-10-12", "c", 0⟩], [], none⟩).weekly_limit = 0 ∧
    (get_summary ⟨2025, 10, 12⟩
        ⟨[⟨"e1", "t", 500, some "2025-10-12", "c", 0⟩], [], none⟩).monthly_limit = 0 ∧
    (get_summary ⟨2025, 10, 12⟩
        ⟨[⟨"e1", "t", 500, some "2025-10-12", "c", 0⟩], [], none⟩).weekly_warning = "none" ∧
    (get_summary ⟨2025, 10, 12⟩
        ⟨[⟨"e1", "t", 500, some "2025-10-12", "c", 0⟩], [], none⟩).monthly_warning = "none" :=
  absent_limit_defaults ⟨2025, 10, 12⟩
    ⟨[⟨"e1", "t", 500, some "2025-10-12", "c", 0⟩], [], none⟩ rfl

/-- Claim C6: `remaining_week = weekly_limit - total_week` and
    `remaining_month = monthly_limit - total_month` hold exactly for every
    store state, and the remainder can be negative (no clamping to zero). -/
theorem remaining_exact_no_clamp :
    (∀ (now : Date) (store : Store),
      (get_summary now store).remaining_week =
        (get_summary now store).weekly_limit -
          (get_summary now store).total_week ∧
      (get_summary now store).remaining_month =
        (get_summary now store).monthly_limit -
          (get_summary now store).total_month) ∧
    (∃ (now : Date) (store : Store),
      (get_summary now store).remaining_week < 0 ∧
      (get_summary now store).remaining_month < 0) := by
  refine ⟨fun now store => ⟨rfl, rfl⟩,
    ⟨⟨2025, 10, 12⟩, ⟨[⟨"e1", "t", 500, some "2025-10-12", "c", 0⟩], [],
      some ⟨some 100, some 200⟩⟩, ?_, ?_⟩⟩
  · have h : (get_summary ⟨2025, 10, 12⟩
        ⟨[⟨"e1", "t", 500, some "2025-10-12", "c", 0⟩], [],
          some ⟨some 100, some 200⟩⟩).remaining_week = 100 - (500 + 0) := rfl
    rw [h]; norm_num
  · have h : (get_summary ⟨2025, 10, 12⟩
        ⟨[⟨"e1", "t", 500, some "2025-10-12", "c", 0⟩], [],
          some ⟨some 100, some 200⟩⟩).remaining_month = 200 - (500 + 0) := rfl
    rw [h]; norm_num

/-- Counterexample to C2 as stated: with 10001 stored expenses all dated
    today, `total_today` is the sum over only the first 10000 of them
    (the `.to_list(length=10000)` cap), not the sum over every stored
    expense. -/
theorem window_sums_cap_cex :
    (get_summary ⟨2025, 10, 12⟩ ⟨List.replicate 10001 cx, [], none⟩).total_today ≠
      (((List.replicate 10001 cx).filter fun e =>
          e.date = some (dateStr ⟨2025, 10, 12⟩)).map (fun e => e.amount)).sum := by
  have h1 : (get_summary ⟨2025, 10, 12⟩ ⟨List.replicate 10001 cx, [], none⟩).total_today =
      ((((List.replicate 10001 cx).take 10000).filter fun e =>
          e.date = some (dateStr ⟨2025, 10, 12⟩)).map (fun e => e.amount)).sum := rfl
  rw [h1, List.take_replicate, repl_filter_today, repl_filter_today,
    List.map_replicate, List.map_replicate, List.sum_replicate, List.sum_replicate]
  show (min 10000 10001) • cx.amount ≠ 10001 • cx.amount
  rw [cx]
  norm_num

/-- Claim C2 (amended to at most 10000 stored expenses): `get_summary`
    computes `total_today` as the sum of `amount` over expenses whose date
    string equals today's date, `total_week` over expenses whose date string
    is `>=` the Monday of the current week (now minus weekday-index days,
    Monday = 0), and `total_month` over expenses whose date string is `>=`
    the first day of the current month, comparing date strings
    lexicographically. -/
theorem window_sums (now : Date) (store : Store)
    (h : store.expenses.length ≤ 10000) :
    (get_summary now store).total_today =
      ((store.expenses.filter fun e => e.date = some (dateStr now)).map
        (fun e => e.amount)).sum ∧
    (get_summary now store).total_week =
      ((store.expenses.filter fun e =>
          strLe (dateStr (subDays now.weekday now)) (e.date.getD "")).map
        (fun e => e.amount)).sum ∧
    (get_summary now store).total_month =
      ((store.expenses.filter fun e =>
          strLe (dateStr ⟨now.year, now.month, 1⟩) (e.date.getD "")).map
        (fun e => e.amount)).sum := by
  refine ⟨?_, ?_, ?_⟩ <;> simp only [get_summary, List.take_of_length_le h]

/-- Witness for C2: the three window sums at a concrete store and date. -/
theorem window_sums_witness :
    (get_summary ⟨2025, 10, 12⟩ st1).total_today =
      ((st1.expenses.filter fun e => e.date = some (dateStr ⟨2025, 10, 12⟩)).map
        (fun e => e.amount)).sum ∧
    (get_summary ⟨2025, 10, 12⟩ st1).total_week =
      ((st1.expenses.filter fun e =>
          strLe (dateStr (subDays (Date.weekday ⟨2025, 10, 12⟩) ⟨2025, 10, 12⟩))
            (e.date.getD "")).map (fun e => e.amount)).sum ∧
    (get_summary ⟨2025, 10, 12⟩ st1).total_month =
      ((st1.expenses.filter fun e =>
          strLe (dateStr ⟨2025, 10, 1⟩) (e.date.getD "")).map
        (fun e => e.amount)).sum :=
  window_sums ⟨2025, 10, 12⟩ st1 (by norm_num [st1])

/-- Counterexample to C3 as stated: an expense whose date string
    `"bad-date"` is not of the `YYYY-MM-DD` form is nevertheless counted in
    `total_week` and `total_month` (lexicographically `"bad-date"` compares
    `>=` any `2...` boundary), rather than being excluded from all three
    sums. -/
theorem malformed_date_counted_cex :
    isIsoDateFormat "bad-date" = false ∧
    (get_summary ⟨2025, 10, 12⟩ st3).total_week = 5 ∧
    (get_summary ⟨2025, 10, 12⟩ st3).total_month = 5 ∧
    (5 : ℚ) ≠ 0 := by
  refine ⟨rfl, ?_, ?_, by norm_num⟩
  · have h : (get_summary ⟨2025, 10, 12⟩ st3).total_week = 5 + 0 := rfl
    rw [h]; norm_num
  · have h : (get_summary ⟨2025, 10, 12⟩ st3).total_month = 5 + 0 := rfl
    rw [h]; norm_num

/-- Claim C3 (amended, split by variant): in `src/server.py`, whose
    `get_summary` reads dates defensively with `.get`, a retrieved expense
    whose `date` field is missing is excluded from all three sums and no
    error is raised (the first conjunct: the three totals equal sums over
    expenses with a present, matching date string; malformed but present
    strings are counted whenever the raw lexicographic comparison
    matches); in `src/backend/server.py`, whose `get_summary` subscripts
    `e['date']`, the totals agree when every retrieved expense has a date,
    but a missing `date` field raises `KeyError` - aborting the summary -
    instead of being excluded. -/
theorem missing_dates_excluded :
    (∀ (now : Date) (store : Store),
      (get_summary now store).total_today =
        (((store.expenses.take 10000).filter fun e =>
            e.date = some (dateStr now)).map (fun e => e.amount)).sum ∧
      (get_summary now store).total_week =
        (((store.expenses.take 10000).filter fun e =>
            match e.date with
            | some s => strLe (dateStr (subDays now.weekday now)) s
            | none => false).map (fun e => e.amount)).sum ∧
      (get_summary now store).total_month =
        (((store.expenses.take 10000).filter fun e =>
            match e.date with
            | some s => strLe (dateStr ⟨now.year, now.month, 1⟩) s
            | none => false).map (fun e => e.amount)).sum) ∧
    (∀ (now : Date) (store : Store),
      (∀ e ∈ store.expenses.take 10000, e.date ≠ none) →
      backendExpenseTotals now store =
        some ((get_summary now store).total_today,
          (get_summary now store).total_week,
          (get_summary now store).total_month)) ∧
    (∀ (now : Date) (store : Store),
      (∃ e ∈ store.expenses.take 10000, e.date = none) →
      backendExpenseTotals now store = none) := by
  refine ⟨fun now store => ?_, fun now store hall => ?_, fun now store hex => ?_⟩
  · refine ⟨rfl, ?_, ?_⟩ <;>
      simp only [get_summary, filter_date_getD]
  · simp only [backendExpenseTotals, sumByDate_all_present _ _ hall]
    have ht : (get_summary now store).total_today =
        (((store.expenses.take 10000).filter fun e =>
            match e.date with
            | some s => s = dateStr now
            | none => false).map (fun e => e.amount)).sum := by
      rw [← filter_date_eq]
      rfl
    have hw : (get_summary now store).total_week =
        (((store.expenses.take 10000).filter fun e =>
            match e.date with
            | some s => strLe (dateStr (subDays now.weekday now)) s
            | none => false).map (fun e => e.amount)).sum := by
      rw [← filter_date_getD]
      rfl
    have hm : (get_summary now store).total_month =
        (((store.expenses.take 10000).filter fun e =>
            match e.date with
            | some s => strLe (dateStr ⟨now.year, now.month, 1⟩) s
            | none => false).map (fun e => e.amount)).sum := by
      rw [← filter_date_getD]
      rfl
    rw [ht, hw, hm]
  · simp only [backendExpenseTotals, sumByDate_missing _ _ hex]

/-- Witness for C3: at a concrete store with all dates present both
    variants agree; adding an expense without a date leaves `src/server.py`
    totals well-defined (first part) while the backend variant raises. -/
theorem missing_dates_excluded_witness :
    ((get_summary ⟨2025, 10, 12⟩ st1).total_today =
        (((st1.expenses.take 10000).filter fun e =>
            e.date = some (dateStr ⟨2025, 10, 12⟩)).map (fun e => e.amount)).sum ∧
      (get_summary ⟨2025, 10, 12⟩ st1).total_week =
        (((st1.expenses.take 10000).filter fun e =>
            match e.date with
            | some s => strLe (dateStr (subDays (Date.weekday ⟨2025, 10, 12⟩)
                ⟨2025, 10, 12⟩)) s
            | none => false).map (fun e => e.amount)).sum ∧
      (get_summary ⟨2025, 10, 12⟩ st1).total_month =
        (((st1.expenses.take 10000).filter fun e =>
            match e.date with
            | some s => strLe (dateStr ⟨2025, 10, 1⟩) s
            | none => false).map (fun e => e.amount)).sum) ∧
    backendExpenseTotals ⟨2025, 10, 12⟩ st1 =
      some ((get_summary ⟨2025, 10, 12⟩ st1).total_today,
        (get_summary ⟨2025, 10, 12⟩ st1).total_week,
        (get_summary ⟨2025, 10, 12⟩ st1).total_month) ∧
    backendExpenseTotals ⟨2025, 10, 12⟩ st5 = none :=
  ⟨missing_dates_excluded.1 ⟨2025, 10, 12⟩ st1,
    missing_dates_excluded.2.1 ⟨2025, 10, 12⟩ st1 (by decide),
    missing_dates_excluded.2.2 ⟨2025, 10, 12⟩ st5 (by decide)⟩

/-- Counterexample to C4 as stated: with 10001 stored pending `gave` debts,
    `money_gave` is the sum over only the first 10000 of them (the
    `.to_list(length=10000)` cap), not the sum over every stored debt. -/
theorem debt_netting_cap_cex :
    (get_summary ⟨2025, 10, 12⟩ ⟨[], List.replicate 10001 cd, none⟩).money_gave ≠
      (((List.replicate 10001 cd).filter fun d =>
          d.debt_type = some "gave" ∧ d.status = some "pending").map
            (fun d => d.amount)).sum := by
  have h1 : (get_summary ⟨2025, 10, 12⟩ ⟨[], List.replicate 10001 cd, none⟩).money_gave =
      ((((List.replicate 10001 cd).take 10000).filter fun d =>
          d.debt_type = some "gave" ∧ d.status = some "pending").map
            (fun d => d.amount)).sum := rfl
  rw [h1, List.take_replicate, repl_filter_gave, repl_filter_gave,
    List.map_replicate, List.map_replicate, List.sum_replicate, List.sum_replicate]
  show (min 10000 10001) • cd.amount ≠ 10001 • cd.amount
  rw [cd]
  norm_num

/-- Claim C4 (amended to at most 10000 stored debts for the two sum
    clauses only): `money_gave` is the sum of `amount` over debts with
    `debt_type == "gave"` and `status == "pending"`, `money_owe` over debts
    with `debt_type == "owe"` and `status == "pending"`; no time windowing
    is applied to debts, and - for any debt set whatsoever, with no size
    restriction - flipping every status to `"paid"` drives both
    `money_gave` and `money_owe` to 0. -/
theorem debt_netting :
    (∀ (now : Date) (store : Store), store.debts.length ≤ 10000 →
      (get_summary now store).money_gave =
        ((store.debts.filter fun d =>
            d.debt_type = some "gave" ∧ d.status = some "pending").map
          (fun d => d.amount)).sum ∧
      (get_summary now store).money_owe =
        ((store.debts.filter fun d =>
            d.debt_type = some "owe" ∧ d.status = some "pending").map
          (fun d => d.amount)).sum) ∧
    (∀ (now : Date) (store : Store),
      (get_summary now
          { store with
            debts := store.debts.map fun d =>
              { d with status := some "paid" } }).money_gave = 0 ∧
      (get_summary now
          { store with
            debts := store.debts.map fun d =>
              { d with status := some "paid" } }).money_owe = 0) := by
  have hmap : ∀ (l : List DebtDoc),
      (l.map fun d => { d with status := some "paid" }).take 10000 =
        (l.take 10000).map fun d => { d with status := some "paid" } := by
    intro l; rw [List.map_take]
  constructor
  · intro now store h
    refine ⟨?_, ?_⟩ <;> simp only [get_summary, List.take_of_length_le h]
  · intro now store
    refine ⟨?_, ?_⟩ <;> · simp only [get_summary, hmap, paid_filter_nil]; rfl

/-- Witness for C4: one pending debt in each direction satisfies the sum
    clauses, and flipping both to paid zeroes both nettings. -/
theorem debt_netting_witness :
    ((get_summary ⟨2025, 10, 12⟩ st4).money_gave =
      ((st4.debts.filter fun d =>
          d.debt_type = some "gave" ∧ d.status = some "pending").map
        (fun d => d.amount)).sum ∧
    (get_summary ⟨2025, 10, 12⟩ st4).money_owe =
      ((st4.debts.filter fun d =>
          d.debt_type = some "owe" ∧ d.status = some "pending").map
        (fun d => d.amount)).sum) ∧
    ((get_summary ⟨2025, 10, 12⟩
        { st4 with
          debts := st4.debts.map fun d =>
            { d with status := some "paid" } }).money_gave = 0 ∧
    (get_summary ⟨2025, 10, 12⟩
        { st4 with
          debts := st4.debts.map fun d =>
            { d with status := some "paid" } }).money_owe = 0) :=
  ⟨debt_netting.1 ⟨2025, 10, 12⟩ st4 (by norm_num [st4]),
    debt_netting.2 ⟨2025, 10, 12⟩ st4⟩

/-- Claim C9: `update_expense` changes only title, amount, date and
    category, leaving every expense's `id` and creation `timestamp`
    unchanged; `update_debt` changes only `status`, leaving every other
    debt field - in particular the `debt_type` direction - unchanged. -/
theorem update_preserves_frame :
    (∀ (eid : String) (inp : ExpenseCreate) (l : List ExpenseDoc),
      List.Forall₂ (fun a b => b.id = a.id ∧ b.timestamp = a.timestamp)
        l (update_expense eid inp l)) ∧
    (∀ (did s : String) (l : List DebtDoc),
      List.Forall₂ (fun a b => b.id = a.id ∧ b.name = a.name ∧
          b.amount = a.amount ∧ b.reason = a.reason ∧ b.date = a.date ∧
          b.debt_type = a.debt_type ∧ b.timestamp = a.timestamp)
        l (update_debt did s l)) := by
  constructor
  · intro eid inp l
    induction l with
    | nil => exact List.Forall₂.nil
    | cons e rest ih =>
      rw [update_expense]
      by_cases hc : e.id = eid
      · rw [if_pos hc]
        exact List.Forall₂.cons ⟨rfl, rfl⟩
          (List.forall₂_same.2 fun x _ => ⟨rfl, rfl⟩)
      · rw [if_neg hc]
        exact List.Forall₂.cons ⟨rfl, rfl⟩ ih
  · intro did s l
    induction l with
    | nil => exact List.Forall₂.nil
    | cons d rest ih =>
      rw [update_debt]
      by_cases hc : d.id = did
      · rw [if_pos hc]
        exact List.Forall₂.cons ⟨rfl, rfl, rfl, rfl, rfl, rfl, rfl⟩
          (List.forall₂_same.2 fun x _ => ⟨rfl, rfl, rfl, rfl, rfl, rfl, rfl⟩)
      · rw [if_neg hc]
        exact List.Forall₂.cons ⟨rfl, rfl, rfl, rfl, rfl, rfl, rfl⟩ ih

/-- Claim C8: the two server variants disagree on `filter=day`: for some
    stored expenses and some instant, `src/server.py` (equality with
    today's date) and `src/backend/server.py` (`>=` start of day) return
    different result sets. -/
theorem day_filter_variants_disagree :
    ∃ (expenses : List ExpenseDoc) (now : Date),
      get_expenses_server now (some "day") expenses ≠
        get_expenses_backend now (some "day") expenses := by
  refine ⟨[⟨"e1", "t", 1, some "9999-12-31", "c", 0⟩], ⟨2025, 10, 12⟩, ?_⟩
  have h1 : get_expenses_server ⟨2025, 10, 12⟩ (some "day")
      [⟨"e1", "t", 1, some "9999-12-31", "c", 0⟩] = [] := rfl
  have h2 : get_expenses_backend ⟨2025, 10, 12⟩ (some "day")
      [⟨"e1", "t", 1, some "9999-12-31", "c", 0⟩] =
      [⟨"e1", "t", 1, some "9999-12-31", "c", 0⟩] := rfl
  rw [h1, h2]
  simp

/-- Claim C10: `get_summary` reads at most 10000 expense documents and at
    most 10000 debt documents (its result only depends on the first 10000
    of each collection), and with 10001 matching records stored the totals
    cover only the first 10000, silently omitting the rest. -/
theorem read_cap_10000 :
    (∀ (now : Date) (store : Store),
      get_summary now store =
        get_summary now
          ⟨store.expenses.take 10000, store.debts.take 10000, store.limit⟩) ∧
    (get_summary ⟨2025, 10, 12⟩
        ⟨List.replicate 10001 cx, List.replicate 10001 cd, none⟩).total_today = 10000 ∧
    (get_summary ⟨2025, 10, 12⟩
        ⟨List.replicate 10001 cx, List.replicate 10001 cd, none⟩).money_gave = 10000 ∧
    (((List.replicate 10001 cx).filter fun e =>
        e.date = some (dateStr ⟨2025, 10, 12⟩)).map (fun e => e.amount)).sum = 10001 ∧
    (((List.replicate 10001 cd).filter fun d =>
        d.debt_type = some "gave" ∧ d.status = some "pending").map
          (fun d => d.amount)).sum = 10001 := by
  refine ⟨fun now store => ?_, ?_, ?_, ?_, ?_⟩
  · simp only [get_summary, List.take_take, min_self]
  · have h : (get_summary ⟨2025, 10, 12⟩
        ⟨List.replicate 10001 cx, List.replicate 10001 cd, none⟩).total_today =
        ((((List.replicate 10001 cx).take 10000).filter fun e =>
            e.date = some (dateStr ⟨2025, 10, 12⟩)).map (fun e => e.amount)).sum := rfl
    rw [h, List.take_replicate, repl_filter_today, List.map_replicate,
      List.sum_replicate]
    show (min 10000 10001) • cx.amount = 10000
    rw [cx]; norm_num
  · have h : (get_summary ⟨2025, 10, 12⟩
        ⟨List.replicate 10001 cx, List.replicate 10001 cd, none⟩).money_gave =
        ((((List.replicate 10001 cd).take 10000).filter fun d =>
            d.debt_type = some "gave" ∧ d.status = some "pending").map
              (fun d => d.amount)).sum := rfl
    rw [h, List.take_replicate, repl_filter_gave, List.map_replicate,
      List.sum_replicate]
    show (min 10000 10001) • cd.amount = 10000
    rw [cd]; norm_num
  · rw [repl_filter_today, List.map_replicate, List.sum_replicate]
    show (10001 : ℕ) • cx.amount = 10001
    rw [cx]; norm_num
  · rw [repl_filter_gave, List.map_replicate, List.sum_replicate]
    show (10001 : ℕ) • cd.amount = 10001
    rw [cd]; norm_num

/-- Claim C7: for every expense list with non-negative amounts whose
    window-matching expenses are all dated within the current calendar
    month, the totals of `get_summary` satisfy
    `total_today ≤ total_week ≤ total_month` (today's exact-match window is
    included in the week window because the Monday boundary string is `≤`
    today's string, and the week window is included in the month window
    under the within-month precondition). -/
theorem window_totals_monotone (now : Date) (store : Store)
    (hvalid : now.Valid)
    (hamts : ∀ e ∈ store.expenses, 0 ≤ e.amount)
    (hdates : ∀ e ∈ store.expenses,
      (e.date = some (dateStr now) ∨
       strLe (dateStr (subDays now.weekday now)) (e.date.getD "") = true ∨
       strLe (dateStr ⟨now.year, now.month, 1⟩) (e.date.getD "") = true) →
      strLe (dateStr ⟨now.year, now.month, 1⟩) (e.date.getD "") = true ∧
      strLe (e.date.getD "")
        (dateStr ⟨now.year, now.month, daysInMonth now.year now.month⟩) = true) :
    (get_summary now store).total_today ≤ (get_summary now store).total_week ∧
    (get_summary now store).total_week ≤ (get_summary now store).total_month := by
  obtain ⟨hy1, hy9999, hm1, hm12, hd1, hdm⟩ := hvalid
  have hvB : ValidB now := ⟨hm1, hm12, hd1, hdm⟩
  have hord1 : 1 ≤ now.toOrdinal := toOrdinal_pos now hd1
  have hk := weekday_lt_ord now hord1
  obtain ⟨wv, wy1, wyle, word, wle⟩ :=
    subDays_props now.weekday now hvB hy1 hk
  have hbw : Bounded (subDays now.weekday now) := by
    obtain ⟨wm1, wm12, wd1, wdm⟩ := wv
    have := daysInMonth_bounds (subDays now.weekday now).year
      (subDays now.weekday now).month
    exact ⟨by omega, by omega, by omega⟩
  have hbn : Bounded now := by
    have := daysInMonth_bounds now.year now.month
    exact ⟨by omega, by omega, by omega⟩
  have hkey : strLe (dateStr (subDays now.weekday now)) (dateStr now) = true :=
    dateStr_le_of_dateLe _ _ hbw hbn wle
  have hamts' : ∀ e ∈ store.expenses.take 10000, 0 ≤ e.amount := fun e he =>
    hamts e (List.mem_of_mem_take he)
  have e1 : (get_summary now store).total_today =
      (((store.expenses.take 10000).filter fun e =>
        e.date = some (dateStr now)).map (fun e => e.amount)).sum := rfl
  have e2 : (get_summary now store).total_week =
      (((store.expenses.take 10000).filter fun e =>
        strLe (dateStr (subDays now.weekday now)) (e.date.getD "")).map
          (fun e => e.amount)).sum := rfl
  have e3 : (get_summary now store).total_month =
      (((store.expenses.take 10000).filter fun e =>
        strLe (dateStr ⟨now.year, now.month, 1⟩) (e.date.getD "")).map
          (fun e => e.amount)).sum := rfl
  constructor
  · rw [e1, e2]
    apply filter_sum_mono _ _ _ hamts'
    intro e he hp
    have hdq : e.date = some (dateStr now) := of_decide_eq_true hp
    show strLe (dateStr (subDays now.weekday now)) (e.date.getD "") = true
    rw [hdq]
    exact hkey
  · rw [e2, e3]
    apply filter_sum_mono _ _ _ hamts'
    intro e he hp
    have hmem : e ∈ store.expenses := List.mem_of_mem_take he
    exact (hdates e hmem (Or.inr (Or.inl hp))).1

/-- Witness for C7: the monotone totals at a concrete in-month store. -/
theorem window_totals_monotone_witness :
    (get_summary ⟨2025, 10, 12⟩ st1).total_today ≤
      (get_summary ⟨2025, 10, 12⟩ st1).total_week ∧
    (get_summary ⟨2025, 10, 12⟩ st1).total_week ≤
      (get_summary ⟨2025, 10, 12⟩ st1).total_month :=
  window_totals_monotone ⟨2025, 10, 12⟩ st1 (by decide)
    (by
      intro e he
      simp only [st1, List.mem_cons, List.not_mem_nil, or_false] at he
      rcases he with rfl | rfl | rfl <;> norm_num)
    (by decide)

end MoneyBalancer
